import Mathlib

/-!
Verification of the txn-enrichment-engine repository: a shallow embedding of
the rule-based transaction classifier (src/enrichment.py, src/rules.py) and of
the preprocessing helpers (src/preprocessing.py), with theorems settling the
behavioural claims about the code.
-/

namespace TxnEngine

/-! Character-level text helpers.

The classifier calls pandas Series.str.contains(pattern, case=False, na=False,
regex=True).  Every pattern in the rule table is an alternation of literal
substrings (optionally wrapped in one group of parentheses), so the regex
semantics used by the code is: some alternative occurs, case-insensitively, as
a substring of the field.  We model text as List Char and case folding as
mapping Char.toLower (ASCII, as in Python for these inputs). -/

/-- Case-fold a character list (models lowercasing under re.IGNORECASE). -/
def lowerL (l : List Char) : List Char := l.map Char.toLower

/-- True when pat occurs at the very start of hay. -/
def isSubAt : List Char → List Char → Bool
  | [], _ => true
  | _ :: _, [] => false
  | p :: ps, h :: hs => p == h && isSubAt ps hs

/-- True when pat occurs as a contiguous substring anywhere in hay
(models re.search of a literal). -/
def containsSub (pat : List Char) : List Char → Bool
  | [] => isSubAt pat []
  | c :: rest => isSubAt pat (c :: rest) || containsSub pat rest

/-- Series.astype(str) renders a missing (NaN) cell as the string "nan";
a present cell is kept as is.  This is the exact conversion the code applies
to TransactionName and NormalizedEntity before matching. -/
def pyStr (o : Option String) : String := o.getD "nan"

/-- One alternative-of-literals pattern matched case-insensitively against a
character list: some alternative is a substring of the case-folded text. -/
def patMatch (alts : List (List Char)) (hay : List Char) : Bool :=
  alts.any (fun a => containsSub (lowerL a) (lowerL hay))

/-- Series.str.contains(pattern, case=False, na=False) applied to one cell of
a text column: the cell is first rendered with astype(str). -/
def strContainsCI (field : Option String) (alts : List (List Char)) : Bool :=
  patMatch alts (pyStr field).toList

/-! The data model: one row of the DataFrame handed to enrich_transactions.
TransactionName and NormalizedEntity are the two text columns the rules are
tested against (missing cells are NaN, hence Option).  The four derived
columns are those the function initializes and overwrites.  All remaining
columns of the row (SignedAmount, TransactionDate, ...) are bundled in the
opaque payload rest, which the classifier never touches. -/

structure Txn (α : Type) where
  transactionName : Option String
  normalizedEntity : Option String
  merchantClassification : String
  transactionClassification : String
  isCreditCardExpense : Nat
  reason : String
  rest : α
deriving DecidableEq

/-- A rule of the ordered rule table, with its regex pattern already split
into its literal alternatives. -/
structure Rule where
  pattern : List (List Char)
  merchantClass : String
  transactionClass : String
  isCreditCard : Nat
  reason : String
deriving DecidableEq

/-- chars is shorthand for String.toList, used to write the rule table. -/
def chars (s : String) : List Char := s.toList

/-- The ordered rule table of enrich_transactions (identical to
ENRICHMENT_RULES in src/rules.py), each regex written as its list of literal
alternatives. -/
def ENRICHMENT_RULES : List Rule := [
  ⟨[chars "visa", chars "mastercard", chars "amex", chars "american express"],
    "financial service", "credit card payment", 1, "credit card type matched"⟩,
  ⟨[chars "stripe", chars "paypal"],
    "payment gateway", "online payment", 0, "payment gateway matched"⟩,
  ⟨[chars "amazon", chars "shopee", chars "ebay", chars "etsy"],
    "ecommerce", "online shopping", 0, "ecommerce site matched"⟩,
  ⟨[chars "salary", chars "payroll", chars "income", chars "deposit"],
    "employer", "income", 0, "income keyword matched"⟩,
  ⟨[chars "atm", chars "cash", chars "withdrawal"],
    "bank", "cash withdrawal", 0, "atm/cash keyword matched"⟩,
  ⟨[chars "starbucks"], "coffee shop", "dining", 0, "starbucks matched"⟩,
  ⟨[chars "netflix"], "entertainment", "subscription", 0, "netflix matched"⟩,
  ⟨[chars "restaurant", chars "cafe", chars "diner"],
    "dining", "food & drinks", 0, "restaurant/cafe matched"⟩,
  ⟨[chars "grocery", chars "supermarket"],
    "groceries", "food & drinks", 0, "grocery matched"⟩,
  ⟨[chars "fuel", chars "gas station"],
    "automotive", "transportation", 0, "fuel matched"⟩,
  ⟨[chars "telecom", chars "phone bill"],
    "utilities", "bills", 0, "telecom matched"⟩,
  ⟨[chars "utility", chars "electricity", chars "water"],
    "utilities", "bills", 0, "utility matched"⟩,
  ⟨[chars "rent", chars "mortgage"], "housing", "bills", 0, "housing matched"⟩,
  ⟨[chars "insurance"], "financial service", "insurance", 0, "insurance matched"⟩,
  ⟨[chars "travel", chars "airline", chars "hotel"],
    "travel", "travel", 0, "travel matched"⟩,
  ⟨[chars "hospital", chars "clinic", chars "pharmacy"],
    "health", "healthcare", 0, "medical matched"⟩,
  ⟨[chars "gym", chars "fitness"], "health", "fitness", 0, "fitness matched"⟩,
  ⟨[chars "education", chars "school"],
    "education", "education", 0, "education matched"⟩]

/-- match_name | match_entity of the loop body: the rule's pattern tested
against the TransactionName and NormalizedEntity cells of one row. -/
def ruleMatchesTxn (r : Rule) (t : Txn α) : Bool :=
  strContainsCI t.transactionName r.pattern || strContainsCI t.normalizedEntity r.pattern

/-- The four df.loc assignments of the loop body, restricted to one row. -/
def setRule (r : Rule) (t : Txn α) : Txn α :=
  { t with merchantClassification := r.merchantClass,
           transactionClassification := r.transactionClass,
           isCreditCardExpense := r.isCreditCard,
           reason := r.reason }

/-- One iteration of the rule loop at one row: the row is updated exactly
when it lies in unmatched_mask & (match_name | match_entity). -/
def applyRule (r : Rule) (t : Txn α) : Txn α :=
  if t.reason = "no rule matched" ∧ ruleMatchesTxn r t then setRule r t else t

/-- The column initialization at the top of enrich_transactions, at one row:
all four derived columns are set to their defaults. -/
def initTxn (t : Txn α) : Txn α :=
  { t with merchantClassification := "other",
           transactionClassification := "other",
           isCreditCardExpense := 0,
           reason := "no rule matched" }

/-- The rule loop applied to a single row. -/
def foldRules (rules : List Rule) (t : Txn α) : Txn α :=
  rules.foldl (fun acc r => applyRule r acc) t

/-- The rule loop of enrich_transactions over the whole table: each
iteration builds its masks column-wise and updates the masked rows, which is
exactly a map of applyRule over the rows. -/
def applyRules (rules : List Rule) (df : List (Txn α)) : List (Txn α) :=
  rules.foldl (fun acc r => acc.map (applyRule r)) df

/-- enrich_transactions generalized over the rule table: initialize the four
derived columns of every row, then run the rule loop. -/
def enrichWith (rules : List Rule) (df : List (Txn α)) : List (Txn α) :=
  applyRules rules (df.map initTxn)

/-- enrich_transactions of src/enrichment.py: the rule loop with the ordered
rule table hard-coded in the function body. -/
def enrich_transactions (df : List (Txn α)) : List (Txn α) :=
  enrichWith ENRICHMENT_RULES df

/-- The classification of a single row by enrich_transactions. -/
def enrichOne (t : Txn α) : Txn α := foldRules ENRICHMENT_RULES (initTxn t)

/-- Modelled from the spec: first-match-wins classification as the spec words
it — the record takes the values of the first rule in declared order whose
pattern matches either text field, and the initialized defaults when no rule
matches.  Used to compare the code's loop against the spec's description. -/
def firstMatchSpec (rules : List Rule) (t : Txn α) : Txn α :=
  match rules.find? (fun r => ruleMatchesTxn r t) with
  | some r => setRule r (initTxn t)
  | none => initTxn t

/-! The raw rule table and pattern compilation.

src/rules.py defines ENRICHMENT_RULES as a plain list literal of 5-tuples
whose first component is the regex source string; importing the module (the
only load-time step) evaluates the literal and performs no validation of the
patterns.  A pattern is only handed to the regex engine inside
Series.str.contains, i.e. while enrich_transactions runs its rule loop, and a
syntactically invalid pattern raises there.  We model the regex sublanguage
the rule table uses — an alternation of nonempty literals over lowercase
letters and spaces, optionally wrapped in one group — and treat a string
outside it as malformed. -/

/-- A rule as written in the source: the pattern still a regex string. -/
structure RawRule where
  pattern : String
  merchantClass : String
  transactionClass : String
  isCreditCard : Nat
  reason : String
deriving DecidableEq

/-- The rule table exactly as written in src/rules.py (and duplicated in the
body of enrich_transactions), with raw pattern strings. -/
def ENRICHMENT_RULES_RAW : List RawRule := [
  ⟨"(visa|mastercard|amex|american express)", "financial service", "credit card payment", 1, "credit card type matched"⟩,
  ⟨"(stripe|paypal)", "payment gateway", "online payment", 0, "payment gateway matched"⟩,
  ⟨"(amazon|shopee|ebay|etsy)", "ecommerce", "online shopping", 0, "ecommerce site matched"⟩,
  ⟨"(salary|payroll|income|deposit)", "employer", "income", 0, "income keyword matched"⟩,
  ⟨"(atm|cash|withdrawal)", "bank", "cash withdrawal", 0, "atm/cash keyword matched"⟩,
  ⟨"starbucks", "coffee shop", "dining", 0, "starbucks matched"⟩,
  ⟨"netflix", "entertainment", "subscription", 0, "netflix matched"⟩,
  ⟨"restaurant|cafe|diner", "dining", "food & drinks", 0, "restaurant/cafe matched"⟩,
  ⟨"grocery|supermarket", "groceries", "food & drinks", 0, "grocery matched"⟩,
  ⟨"fuel|gas station", "automotive", "transportation", 0, "fuel matched"⟩,
  ⟨"telecom|phone bill", "utilities", "bills", 0, "telecom matched"⟩,
  ⟨"utility|electricity|water", "utilities", "bills", 0, "utility matched"⟩,
  ⟨"rent|mortgage", "housing", "bills", 0, "housing matched"⟩,
  ⟨"insurance", "financial service", "insurance", 0, "insurance matched"⟩,
  ⟨"travel|airline|hotel", "travel", "travel", 0, "travel matched"⟩,
  ⟨"hospital|clinic|pharmacy", "health", "healthcare", 0, "medical matched"⟩,
  ⟨"gym|fitness", "health", "fitness", 0, "fitness matched"⟩,
  ⟨"education|school", "education", "education", 0, "education matched"⟩]

/-- Loading the rule set (importing src/rules.py): evaluating the list
literal.  No pattern is compiled or validated at this point, so loading
always succeeds and returns the rule set unchanged. -/
def loadRules (rs : List RawRule) : Except String (List RawRule) := Except.ok rs

/-- Characters allowed in a literal alternative of the rule sublanguage. -/
def isLitChar (c : Char) : Bool := c.isLower || c == ' '

/-- Split a character list at every bar, the alternation separator. -/
def splitBar : List Char → List (List Char)
  | [] => [[]]
  | c :: rest =>
    match splitBar rest with
    | [] => [[]]
    | g :: gs => if c == '|' then [] :: g :: gs else (c :: g) :: gs

/-- Remove one enclosing group of parentheses when present. -/
def stripGroup (l : List Char) : List Char :=
  match l with
  | '(' :: rest => if rest.getLast? == some ')' then rest.dropLast else l
  | _ => l

/-- Compile a pattern of the rule sublanguage into its list of literal
alternatives; a string outside the sublanguage (e.g. with an unbalanced
parenthesis) is malformed and yields none, modelling re.error. -/
def compilePattern (p : String) : Option (List (List Char)) :=
  let alts := splitBar (stripGroup p.toList)
  if alts.all (fun a => !a.isEmpty && a.all isLitChar) then some alts else none

/-- Compile every pattern of a raw rule table, failing on the first
malformed pattern and reporting it. -/
def compileRules : List RawRule → Except String (List Rule)
  | [] => Except.ok []
  | r :: rs =>
    match compilePattern r.pattern with
    | none => Except.error r.pattern
    | some alts =>
      match compileRules rs with
      | Except.error e => Except.error e
      | Except.ok rest =>
        Except.ok (⟨alts, r.merchantClass, r.transactionClass, r.isCreditCard, r.reason⟩ :: rest)

/-- The rule loop run on raw rules: each iteration first hands the rule's
pattern string to the regex engine (inside Series.str.contains), so a
malformed pattern raises at that point of the loop; the error names the
offending pattern. -/
def applyRulesRaw : List RawRule → List (Txn α) → Except String (List (Txn α))
  | [], df => Except.ok df
  | r :: rs, df =>
    match compilePattern r.pattern with
    | none => Except.error r.pattern
    | some alts =>
      applyRulesRaw rs
        (df.map (applyRule ⟨alts, r.merchantClass, r.transactionClass, r.isCreditCard, r.reason⟩))

/-- enrich_transactions on a raw rule table: initialize the derived columns,
then run the raw rule loop, which can raise on a malformed pattern. -/
def enrichRaw (rs : List RawRule) (df : List (Txn α)) : Except String (List (Txn α)) :=
  applyRulesRaw rs (df.map initTxn)

/-! Preprocessing (src/preprocessing.py).  Numeric cell values are modelled
as rationals; a missing value (NaN) is Option.none or Cell.missing. -/

/-- fillna(0) on one optional numeric cell. -/
def fillna0 (o : Option ℚ) : ℚ := o.getD 0

/-- convert_credit_debit at one row: the signed amount is the credit minus
the debit, each with missing treated as 0. -/
def convert_credit_debit (credit debit : Option ℚ) : ℚ :=
  fillna0 credit - fillna0 debit

/-- The credit flag of flag_credit_debit: (amount greater than 0) cast to int. -/
def flagCredit (amount : ℚ) : Nat := if 0 < amount then 1 else 0

/-- The debit flag of flag_credit_debit: (amount less than 0) cast to int. -/
def flagDebit (amount : ℚ) : Nat := if amount < 0 then 1 else 0

/-- One cell of a raw numeric column: a finite number, one of the two float
infinities, an arbitrary string, or missing (NaN). -/
inductive Cell
  | num (q : ℚ)
  | pinf
  | ninf
  | str (s : String)
  | missing
deriving DecidableEq

/-- The values pd.to_numeric can produce from a coercible string cell:
finite floats (modelled exactly as rationals), the two infinities, and NaN
itself (the strings nan and -nan parse to the missing marker). -/
inductive PyNum
  | fin (q : ℚ)
  | pinf
  | ninf
  | nanv
deriving DecidableEq

/-- Parse a nonempty run of decimal digits, most significant first. -/
def parseNatAux : List Char → Nat → Option Nat
  | [], acc => some acc
  | c :: rest, acc =>
    if c.isDigit then parseNatAux rest (acc * 10 + (c.toNat - 48)) else none

/-- Parse a nonempty all-digit character list as a natural number. -/
def parseNatL (l : List Char) : Option Nat :=
  if l.isEmpty then none else parseNatAux l 0

/-- Split at the first decimal point, when there is one. -/
def splitDot : List Char → List Char × Option (List Char)
  | [] => ([], none)
  | c :: rest =>
    if c == '.' then ([], some rest)
    else
      let p := splitDot rest
      (c :: p.1, p.2)

/-- Split at the first exponent marker e or E, when there is one. -/
def splitExp : List Char → List Char × Option (List Char)
  | [] => ([], none)
  | c :: rest =>
    if c == 'e' || c == 'E' then ([], some rest)
    else
      let p := splitExp rest
      (c :: p.1, p.2)

/-- Strip one optional leading sign, returning it as plus or minus one. -/
def splitSign : List Char → Int × List Char
  | '-' :: rest => (-1, rest)
  | '+' :: rest => (1, rest)
  | l => (1, l)

/-- Parse a mantissa — digits with an optional decimal point, at least one
digit overall — into its digit value and its number of fractional digits. -/
def parseMantissa (l : List Char) : Option (Nat × Nat) :=
  let p := splitDot l
  match p.2 with
  | none => (parseNatL p.1).map (fun n => (n, 0))
  | some frac =>
    if p.1.isEmpty && frac.isEmpty then none
    else
      match (if p.1.isEmpty then some 0 else parseNatL p.1),
            (if frac.isEmpty then some 0 else parseNatL frac) with
      | some ip, some fp => some (ip * 10 ^ frac.length + fp, frac.length)
      | _, _ => none

/-- Parse an exponent part: an optional sign followed by digits. -/
def parseExpPart (l : List Char) : Option Int :=
  let s := splitSign l
  (parseNatL s.2).map (fun n => s.1 * (n : Int))

/-- The finite value sign * m * 10 ^ t, with nonnegative powers of ten kept
inside integer arithmetic. -/
def pyFin (sign : Int) (m : Nat) (t : Int) : ℚ :=
  if 0 ≤ t then ((sign * (m : Int) * 10 ^ t.toNat : ℤ) : ℚ)
  else ((sign * (m : Int) : ℤ) : ℚ) / ((10 : ℚ) ^ (-t).toNat)

/-- The numeric-string grammar pd.to_numeric coerces: optional surrounding
spaces and sign, then either an infinity keyword (inf or infinity, any
case), the keyword nan (any case, giving NaN), or a decimal mantissa with an
optional fractional part and an optional e or E exponent with its own
optional sign.  Anything else fails to coerce. -/
def parseNum (s : String) : Option PyNum :=
  let l := ((s.toList.dropWhile (· == ' ')).reverse.dropWhile (· == ' ')).reverse
  let sb := splitSign l
  let body := sb.2
  let lb := lowerL body
  if lb = chars "inf" ∨ lb = chars "infinity" then
    some (if sb.1 = 1 then PyNum.pinf else PyNum.ninf)
  else if lb = chars "nan" then some PyNum.nanv
  else
    let pe := splitExp body
    match parseMantissa pe.1 with
    | none => none
    | some mp =>
      match pe.2 with
      | none => some (PyNum.fin (pyFin sb.1 mp.1 (-(mp.2 : Int))))
      | some ex =>
        match parseExpPart ex with
        | none => none
        | some e => some (PyNum.fin (pyFin sb.1 mp.1 (e - (mp.2 : Int))))

/-- Series.replace applied to one cell: a cell equal to the overflow
sentinel string becomes NaN; every other cell is kept. -/
def replaceOverflow (c : Cell) : Cell :=
  if c = Cell.str "########" then Cell.missing else c

/-- pd.to_numeric with coercing errors, at one cell: numeric values pass
through, missing stays missing, and a string becomes its parsed value — a
parsed NaN is the missing marker — or missing when it cannot be coerced;
never an error. -/
def toNumericCoerce (c : Cell) : Cell :=
  match c with
  | Cell.num q => Cell.num q
  | Cell.pinf => Cell.pinf
  | Cell.ninf => Cell.ninf
  | Cell.missing => Cell.missing
  | Cell.str s =>
    match parseNum s with
    | some (PyNum.fin q) => Cell.num q
    | some PyNum.pinf => Cell.pinf
    | some PyNum.ninf => Cell.ninf
    | some PyNum.nanv => Cell.missing
    | none => Cell.missing

/-- fix_excel_overflow at one cell of a numeric column: replace the overflow
sentinel by NaN, then coerce to numeric. -/
def fix_excel_overflow (c : Cell) : Cell := toNumericCoerce (replaceOverflow c)

/-! Schema validation (validate_schema).  A DataFrame is abstracted as its
list of columns, each with the coarse dtype the two pandas checks inspect. -/

/-- Coarse column dtype: numeric, datetime, or anything else. -/
inductive DType
  | numericT
  | datetimeT
  | objectT
deriving DecidableEq

/-- A DataFrame schema: the columns in order, with their coarse dtypes. -/
abbrev Df : Type := List (String × DType)

/-- col in df.columns. -/
def dfHasCol (df : Df) (c : String) : Bool := df.any (fun p => p.1 = c)

/-- The coarse dtype of df[col]: the first column with that name. -/
def dtypeOf (df : Df) (c : String) : Option DType :=
  (df.find? (fun p => p.1 = c)).map Prod.snd

/-- The errors validate_schema can raise: the ValueError naming the list of
missing expected columns, a TypeError naming a non-numeric or non-datetime
column, and the KeyError pandas raises when a dtype check indexes an absent
column. -/
inductive SchemaErr
  | missingColumns (cols : List String)
  | notNumeric (col : String)
  | notDatetime (col : String)
  | keyError (col : String)
deriving DecidableEq

/-- The first loop of dtype checks: each declared numeric column must have a
numeric dtype; the error names the first offending column. -/
def checkNumericCols (df : Df) : List String → Except SchemaErr Unit
  | [] => Except.ok ()
  | c :: rest =>
    match dtypeOf df c with
    | none => Except.error (SchemaErr.keyError c)
    | some DType.numericT => checkNumericCols df rest
    | some _ => Except.error (SchemaErr.notNumeric c)

/-- The second loop of dtype checks: each declared date column must have a
datetime dtype; the error names the first offending column. -/
def checkDatetimeCols (df : Df) : List String → Except SchemaErr Unit
  | [] => Except.ok ()
  | c :: rest =>
    match dtypeOf df c with
    | none => Except.error (SchemaErr.keyError c)
    | some DType.datetimeT => checkDatetimeCols df rest
    | some _ => Except.error (SchemaErr.notDatetime c)

/-- validate_schema of src/preprocessing.py: raise a ValueError listing every
missing expected column when one is absent; otherwise run the numeric and
datetime dtype checks; when everything passes, return the table itself. -/
def validate_schema (df : Df) (expected numericCols dateCols : List String) :
    Except SchemaErr Df :=
  if expected.all (fun c => dfHasCol df c) then
    match checkNumericCols df numericCols with
    | Except.error e => Except.error e
    | Except.ok _ =>
      match checkDatetimeCols df dateCols with
      | Except.error e => Except.error e
      | Except.ok _ => Except.ok df
  else
    Except.error (SchemaErr.missingColumns (expected.filter (fun c => !dfHasCol df c)))

/-! Further definitions used to state and witness the claims. -/

/-- Case-folded rendering of a text cell, exactly as the matcher reads it
(astype(str) then case folding). -/
def lowField (o : Option String) : List Char := lowerL (pyStr o).toList

/-- Case-folded character list of a string, for stating case-variance of
inputs. -/
def strLower (s : String) : List Char := lowerL s.toList

/-- The components of a row the rule loop can read or write: the two text
cells as the matcher sees them, and the four derived columns. -/
def key (t : Txn α) : List Char × List Char × String × String × Nat × String :=
  (lowField t.transactionName, lowField t.normalizedEntity, t.merchantClassification,
    t.transactionClassification, t.isCreditCardExpense, t.reason)

/-- A sample row from the demonstration block of src/enrichment.py. -/
def sampleVisa : Txn Unit :=
  ⟨some "VISA PAYMENT GOOGLE", some "Google Pay", "", "", 0, "", ()⟩

/-- A sample row that no rule matches. -/
def sampleUnknown : Txn Unit :=
  ⟨some "Something Unclassified", some "Unknown Entity", "", "", 0, "", ()⟩

/-- A rule whose reason label reuses the unmatched sentinel, though it is
earlier in order and matches. -/
def ruleSentinelReason : Rule := ⟨[chars "pay"], "m1", "t1", 1, "no rule matched"⟩

/-- A later rule matching the same text. -/
def ruleLater : Rule := ⟨[chars "pay"], "m2", "t2", 0, "second rule matched"⟩

/-- A row matched by both of the two rules above. -/
def txnPay : Txn Unit := ⟨some "payment", none, "", "", 0, "", ()⟩

/-- A rule table whose only pattern is malformed regex (unbalanced
parenthesis). -/
def badRawRules : List RawRule :=
  [⟨"(visa", "financial service", "credit card payment", 1, "credit card type matched"⟩]

/-! Structural lemmas about the rule loop. -/

/-- One loop iteration never touches the two text cells or the untouched
payload of a row. -/
theorem applyRule_frame (r : Rule) (t : Txn α) :
    (applyRule r t).transactionName = t.transactionName ∧
    (applyRule r t).normalizedEntity = t.normalizedEntity ∧
    (applyRule r t).rest = t.rest := by
  unfold applyRule
  split <;> exact ⟨rfl, rfl, rfl⟩

/-- The whole rule loop never touches the two text cells or the untouched
payload of a row. -/
theorem foldRules_frame (rules : List Rule) (t : Txn α) :
    (foldRules rules t).transactionName = t.transactionName ∧
    (foldRules rules t).normalizedEntity = t.normalizedEntity ∧
    (foldRules rules t).rest = t.rest := by
  induction rules generalizing t with
  | nil => exact ⟨rfl, rfl, rfl⟩
  | cons r rs ih =>
    have h1 := applyRule_frame r t
    have h2 := ih (applyRule r t)
    exact ⟨h2.1.trans h1.1, h2.2.1.trans h1.2.1, h2.2.2.trans h1.2.2⟩

/-- The vectorized rule loop is the per-row rule loop mapped over the rows:
each iteration computes its masks row-wise and updates each masked row from
that row's own state alone. -/
theorem applyRules_eq_map (rules : List Rule) (df : List (Txn α)) :
    applyRules rules df = df.map (foldRules rules) := by
  induction rules generalizing df with
  | nil => exact (List.map_id df).symm
  | cons r rs ih =>
    show applyRules rs (df.map (applyRule r)) = _
    rw [ih (df.map (applyRule r)), List.map_map]
    rfl

/-- A row that is no longer in the unmatched state is never updated again by
the remaining iterations of the rule loop. -/
theorem foldRules_of_matched (rules : List Rule) (t : Txn α)
    (h : t.reason ≠ "no rule matched") : foldRules rules t = t := by
  induction rules with
  | nil => rfl
  | cons r rs ih =>
    have ha : applyRule r t = t := by
      unfold applyRule
      rw [if_neg]
      intro hc
      exact h hc.1
    show foldRules rs (applyRule r t) = t
    rw [ha, ih]

/-- First-match characterization of the per-row rule loop: provided no
rule's reason label is the unmatched sentinel, a row that starts unmatched
ends with the values of the first matching rule, and unchanged when no rule
matches. -/
theorem foldRules_first_match (rules : List Rule)
    (hr : ∀ r ∈ rules, r.reason ≠ "no rule matched")
    (t : Txn α) (ht : t.reason = "no rule matched") :
    foldRules rules t =
      match rules.find? (fun r => ruleMatchesTxn r t) with
      | some r => setRule r t
      | none => t := by
  induction rules with
  | nil => rfl
  | cons r rs ih =>
    show foldRules rs (applyRule r t) = _
    by_cases hm : ruleMatchesTxn r t = true
    · have ha : applyRule r t = setRule r t := by
        unfold applyRule
        rw [if_pos ⟨ht, hm⟩]
      have hne : (setRule r t).reason ≠ "no rule matched" :=
        hr r (List.mem_cons_self r rs)
      rw [ha, foldRules_of_matched rs _ hne,
        List.find?_cons_of_pos (p := fun x => ruleMatchesTxn x t) rs hm]
    · have ha : applyRule r t = t := by
        unfold applyRule
        rw [if_neg]
        rintro ⟨_, h2⟩
        exact hm h2
      rw [ha, ih (fun x hx => hr x (List.mem_cons_of_mem r hx)),
        List.find?_cons_of_neg (p := fun x => ruleMatchesTxn x t) rs hm]

/-- Mapping twice is mapping the pointwise composition (eta-expanded form,
convenient for rewriting). -/
theorem map_comp_eta {β γ : Type} (f : β → γ) (g : α → β) :
    ∀ l : List α, (l.map g).map f = l.map (fun x => f (g x))
  | [] => rfl
  | x :: xs => by rw [List.map_cons, List.map_cons, List.map_cons, map_comp_eta f g xs]

/-- enrich_transactions classifies the rows one by one: it is the map of the
single-row classification over the table. -/
theorem enrich_eq_map (df : List (Txn α)) :
    enrich_transactions df = df.map enrichOne := by
  show applyRules ENRICHMENT_RULES (df.map initTxn) = df.map enrichOne
  rw [applyRules_eq_map, map_comp_eta]
  rfl

/-- No rule of the actual rule table uses the unmatched sentinel as its
reason label, the default merchant class, or the default transaction
class. -/
theorem rules_labels_nondefault :
    ∀ r ∈ ENRICHMENT_RULES,
      r.reason ≠ "no rule matched" ∧ r.merchantClass ≠ "other" ∧
      r.transactionClass ≠ "other" := by decide

/-- The per-row loop on an initialized row computes the spec's first-match
classification, provided no rule reuses the unmatched sentinel. -/
theorem foldRules_init_eq_spec (rules : List Rule)
    (hr : ∀ r ∈ rules, r.reason ≠ "no rule matched") (t : Txn α) :
    foldRules rules (initTxn t) = firstMatchSpec rules t := by
  have e : List.find? (fun r => ruleMatchesTxn r (initTxn t)) rules =
      List.find? (fun r => ruleMatchesTxn r t) rules := rfl
  rw [foldRules_first_match rules hr (initTxn t) rfl, e]
  unfold firstMatchSpec
  rcases hf : List.find? (fun r => ruleMatchesTxn r t) rules with _ | r
  · rfl
  · rfl

/-- Unfolding equation for the single-row classification. -/
theorem enrichOne_def (t : Txn α) :
    enrichOne t = foldRules ENRICHMENT_RULES (initTxn t) := rfl

/-- Matching a pattern against a text cell only depends on the case-folded
rendering of the cell. -/
theorem strContainsCI_congr (f g : Option String) (alts : List (List Char))
    (h : lowField f = lowField g) : strContainsCI f alts = strContainsCI g alts := by
  unfold strContainsCI patMatch
  rw [show lowerL (pyStr f).toList = lowerL (pyStr g).toList from h]

/-- One loop iteration maps rows with equal visible components to rows with
equal visible components. -/
theorem applyRule_key_congr (r : Rule) (t u : Txn α) (h : key t = key u) :
    key (applyRule r t) = key (applyRule r u) := by
  have h' := h
  unfold key at h
  simp only [Prod.mk.injEq] at h
  obtain ⟨hn, he, hm, htc, hcc, hr⟩ := h
  have hmatch : ruleMatchesTxn r t = ruleMatchesTxn r u := by
    unfold ruleMatchesTxn
    rw [strContainsCI_congr _ _ _ hn, strContainsCI_congr _ _ _ he]
  unfold applyRule
  by_cases hcond : u.reason = "no rule matched" ∧ ruleMatchesTxn r u = true
  · rw [if_pos hcond, if_pos (show _ ∧ _ by rw [hr, hmatch]; exact hcond)]
    show (lowField t.transactionName, lowField t.normalizedEntity, r.merchantClass,
        r.transactionClass, r.isCreditCard, r.reason) =
      (lowField u.transactionName, lowField u.normalizedEntity, r.merchantClass,
        r.transactionClass, r.isCreditCard, r.reason)
    rw [hn, he]
  · rw [if_neg (show ¬(_ ∧ _) by rw [hr, hmatch]; exact hcond), if_neg hcond]
    exact h'

/-- The whole rule loop maps rows with equal visible components to rows with
equal visible components. -/
theorem foldRules_key_congr (rules : List Rule) (t u : Txn α) (h : key t = key u) :
    key (foldRules rules t) = key (foldRules rules u) := by
  induction rules generalizing t u with
  | nil => exact h
  | cons r rs ih => exact ih (applyRule r t) (applyRule r u) (applyRule_key_congr r t u h)

/-- Case variants of an optional text cell render identically to the
matcher. -/
theorem lowField_congr (n m : Option String) (h : n.map strLower = m.map strLower) :
    lowField n = lowField m := by
  cases n with
  | none =>
    cases m with
    | none => rfl
    | some b => exact absurd h (by simp)
  | some a =>
    cases m with
    | none => exact absurd h (by simp)
    | some b =>
      have hab : strLower a = strLower b := by simpa using h
      exact hab

/-- Mapping two pointwise-equal functions over a list gives equal lists. -/
theorem map_congr_fun {β : Type} (f g : α → β) (h : ∀ x, f x = g x) :
    ∀ l : List α, l.map f = l.map g
  | [] => rfl
  | x :: xs => by rw [List.map_cons, List.map_cons, h x, map_congr_fun f g h xs]

/-! Claim theorems. -/

/-- C1 counterexample: the claim quantifies over every ordered rule list, but
the loop detects the unmatched state through the sentinel reason string.  For
the rule list whose earlier rule R1 carries the sentinel as its own reason
label, both R1 and the later rule R2 match the record, yet the final
classification is R2's, not R1's. -/
theorem first_rule_loses_to_sentinel_reason :
    ruleMatchesTxn ruleSentinelReason txnPay = true ∧
    ruleMatchesTxn ruleLater txnPay = true ∧
    (enrichWith [ruleSentinelReason, ruleLater] [txnPay]).map
        (fun t => (t.merchantClassification, t.transactionClassification,
          t.isCreditCardExpense, t.reason)) =
      [(ruleLater.merchantClass, ruleLater.transactionClass,
        ruleLater.isCreditCard, ruleLater.reason)] ∧
    ruleLater.merchantClass ≠ ruleSentinelReason.merchantClass := by decide

/-- C1 (amended): for every record and every ordered rule list in which no
rule's reason label equals the sentinel "no rule matched" (true of the actual
rule table), the final classification of every record is that of the first
rule in declared order whose pattern matches either text field — in
particular, when an earlier rule R1 and a later rule R2 both match, the
record takes R1's values, never R2's. -/
theorem first_match_wins {α : Type} (rules : List Rule) (df : List (Txn α))
    (h : ∀ r ∈ rules, r.reason ≠ "no rule matched") :
    enrichWith rules df = df.map (firstMatchSpec rules) := by
  show applyRules rules (df.map initTxn) = df.map (firstMatchSpec rules)
  rw [applyRules_eq_map, map_comp_eta]
  have e : (fun t : Txn α => foldRules rules (initTxn t)) = firstMatchSpec rules :=
    funext fun t => foldRules_init_eq_spec rules h t
  rw [e]

/-- Witness for first_match_wins at the actual rule table and a concrete
row. -/
theorem first_match_wins_witness :
    enrichWith ENRICHMENT_RULES [sampleVisa] =
      [sampleVisa].map (firstMatchSpec ENRICHMENT_RULES) :=
  first_match_wins ENRICHMENT_RULES [sampleVisa] (by decide)

/-- C2: after classification every record carries exactly one merchant class
and one transaction class (the fields are single-valued, defaulting to
"other" exactly when no rule matches), and the reason field equals the
sentinel "no rule matched" if and only if the derived fields are at their
initialized defaults. -/
theorem match_reason_iff_defaults {α : Type} (df : List (Txn α)) (t : Txn α)
    (h : t ∈ enrich_transactions df) :
    (t.reason = "no rule matched" ↔
      (t.merchantClassification = "other" ∧ t.transactionClassification = "other" ∧
        t.isCreditCardExpense = 0)) ∧
    ((∀ r ∈ ENRICHMENT_RULES, ruleMatchesTxn r t = false) →
      t.merchantClassification = "other" ∧ t.transactionClassification = "other") := by
  rw [enrich_eq_map] at h
  obtain ⟨s, hs, rfl⟩ := List.mem_map.mp h
  rw [enrichOne_def,
    foldRules_init_eq_spec ENRICHMENT_RULES (fun r hr => (rules_labels_nondefault r hr).1) s]
  unfold firstMatchSpec
  rcases hf : List.find? (fun r => ruleMatchesTxn r s) ENRICHMENT_RULES with _ | r
  · exact ⟨by simp [initTxn], fun _ => ⟨rfl, rfl⟩⟩
  · have hmem := List.mem_of_find?_eq_some hf
    have hlab := rules_labels_nondefault r hmem
    have hmat := List.find?_some hf
    constructor
    · constructor
      · intro h1
        exact absurd h1 hlab.1
      · rintro ⟨h1, -, -⟩
        exact absurd h1 hlab.2.1
    · intro hall
      have hff : ruleMatchesTxn r s = false := hall r hmem
      have hmat2 : ruleMatchesTxn r s = true := hmat
      cases hmat2.symm.trans hff

/-- Witness for match_reason_iff_defaults at a concrete classified table. -/
theorem match_reason_iff_defaults_witness :
    enrichOne sampleVisa ∈ enrich_transactions [sampleVisa] ∧
    ((enrichOne sampleVisa).reason = "no rule matched" ↔
      ((enrichOne sampleVisa).merchantClassification = "other" ∧
        (enrichOne sampleVisa).transactionClassification = "other" ∧
        (enrichOne sampleVisa).isCreditCardExpense = 0)) :=
  ⟨by decide, (match_reason_iff_defaults [sampleVisa] (enrichOne sampleVisa) (by decide)).1⟩

/-- C3: a missing text cell never satisfies any rule's pattern — for every
rule of the table it matches exactly as the empty string does, namely not at
all — so a record with both text fields missing keeps the default
classification. -/
theorem missing_fields_never_match {α : Type} (t : Txn α)
    (hn : t.transactionName = none) (he : t.normalizedEntity = none) :
    (∀ r ∈ ENRICHMENT_RULES,
      strContainsCI t.transactionName r.pattern = false ∧
      strContainsCI t.normalizedEntity r.pattern = false ∧
      strContainsCI t.transactionName r.pattern = strContainsCI (some "") r.pattern) ∧
    enrichOne t = initTxn t := by
  constructor
  · rw [hn, he]
    decide
  · have hdec : ∀ r ∈ ENRICHMENT_RULES,
        (strContainsCI none r.pattern || strContainsCI none r.pattern) = false := by decide
    have hnone : ∀ r ∈ ENRICHMENT_RULES, ¬(ruleMatchesTxn r t = true) := by
      intro r hr
      unfold ruleMatchesTxn
      rw [hn, he, hdec r hr]
      simp
    rw [enrichOne_def,
      foldRules_init_eq_spec ENRICHMENT_RULES (fun r hr => (rules_labels_nondefault r hr).1) t]
    unfold firstMatchSpec
    rw [List.find?_eq_none.mpr hnone]

/-- Witness for missing_fields_never_match at a concrete all-missing row. -/
theorem missing_fields_never_match_witness :
    enrichOne (⟨none, none, "a", "b", 2, "c", ()⟩ : Txn Unit) =
      initTxn (⟨none, none, "a", "b", 2, "c", ()⟩ : Txn Unit) :=
  (missing_fields_never_match ⟨none, none, "a", "b", 2, "c", ()⟩ rfl rfl).2

/-- C8: each record's classification is purely a function of that record and
the rule list — two input tables that agree at position i produce classified
tables that agree at position i, whatever the other records are. -/
theorem classification_pointwise {α : Type} (df1 df2 : List (Txn α)) (i : Nat)
    (h : df1[i]? = df2[i]?) :
    (enrich_transactions df1)[i]? = (enrich_transactions df2)[i]? := by
  rw [enrich_eq_map, enrich_eq_map, List.getElem?_map, List.getElem?_map, h]

/-- Witness for classification_pointwise: two tables sharing only the record
at position 0 classify it identically. -/
theorem classification_pointwise_witness :
    ([sampleVisa][0]? = [sampleVisa, sampleUnknown][0]?) ∧
    (enrich_transactions [sampleVisa])[0]? =
      (enrich_transactions [sampleVisa, sampleUnknown])[0]? :=
  ⟨rfl, classification_pointwise [sampleVisa] [sampleVisa, sampleUnknown] 0 rfl⟩

/-- C9: classification is invariant under letter case of the two text
fields — replacing them by any case variants yields the same four derived
fields. -/
theorem case_insensitive_classification {α : Type} (t : Txn α) (n e : Option String)
    (hn : n.map strLower = t.transactionName.map strLower)
    (he : e.map strLower = t.normalizedEntity.map strLower) :
    ((enrichOne { t with transactionName := n, normalizedEntity := e }).merchantClassification =
        (enrichOne t).merchantClassification) ∧
    ((enrichOne { t with transactionName := n, normalizedEntity := e }).transactionClassification =
        (enrichOne t).transactionClassification) ∧
    ((enrichOne { t with transactionName := n, normalizedEntity := e }).isCreditCardExpense =
        (enrichOne t).isCreditCardExpense) ∧
    ((enrichOne { t with transactionName := n, normalizedEntity := e }).reason =
        (enrichOne t).reason) := by
  have hkey : key (initTxn { t with transactionName := n, normalizedEntity := e }) =
      key (initTxn t) := by
    unfold key
    simp only [Prod.mk.injEq]
    exact ⟨lowField_congr n t.transactionName hn, lowField_congr e t.normalizedEntity he,
      rfl, rfl, rfl, rfl⟩
  have hk := foldRules_key_congr ENRICHMENT_RULES
    (initTxn { t with transactionName := n, normalizedEntity := e }) (initTxn t) hkey
  rw [← enrichOne_def] at hk
  rw [← enrichOne_def] at hk
  unfold key at hk
  simp only [Prod.mk.injEq] at hk
  exact ⟨hk.2.2.1, hk.2.2.2.1, hk.2.2.2.2.1, hk.2.2.2.2.2⟩

/-- Witness for case_insensitive_classification: an upper-case and a
lower-case variant of the same row classify identically. -/
theorem case_insensitive_classification_witness :
    ((enrichOne (⟨some "visa payment google", some "google pay", "", "", 0, "", ()⟩ : Txn Unit)).merchantClassification =
      (enrichOne sampleVisa).merchantClassification) ∧
    ((enrichOne (⟨some "visa payment google", some "google pay", "", "", 0, "", ()⟩ : Txn Unit)).transactionClassification =
      (enrichOne sampleVisa).transactionClassification) ∧
    ((enrichOne (⟨some "visa payment google", some "google pay", "", "", 0, "", ()⟩ : Txn Unit)).isCreditCardExpense =
      (enrichOne sampleVisa).isCreditCardExpense) ∧
    ((enrichOne (⟨some "visa payment google", some "google pay", "", "", 0, "", ()⟩ : Txn Unit)).reason =
      (enrichOne sampleVisa).reason) :=
  case_insensitive_classification sampleVisa (some "visa payment google")
    (some "google pay") (by decide) (by decide)

/-- C10: the classifier adds or overwrites exactly the four derived columns:
it preserves the number and order of the records and leaves the two text
columns and every other column of each record unchanged. -/
theorem frame_preservation {α : Type} (df : List (Txn α)) :
    (enrich_transactions df).length = df.length ∧
    (enrich_transactions df).map (fun t => (t.transactionName, t.normalizedEntity, t.rest)) =
      df.map (fun t => (t.transactionName, t.normalizedEntity, t.rest)) := by
  have e : ∀ t : Txn α,
      ((enrichOne t).transactionName, (enrichOne t).normalizedEntity, (enrichOne t).rest) =
        (t.transactionName, t.normalizedEntity, t.rest) := by
    intro t
    have hfr := foldRules_frame ENRICHMENT_RULES (initTxn t)
    rw [enrichOne_def, hfr.1, hfr.2.1, hfr.2.2]
    rfl
  constructor
  · rw [enrich_eq_map]
    exact List.length_map df enrichOne
  · rw [enrich_eq_map, map_comp_eta]
    exact map_congr_fun _ _ e df

/-! Lemmas for the raw-rule loop and schema validation. -/

/-- When every pattern of a raw rule table compiles, the raw rule loop
succeeds and computes exactly the compiled rule loop. -/
theorem applyRulesRaw_ok (rs : List RawRule) (rulesC : List Rule)
    (h : compileRules rs = Except.ok rulesC) (df : List (Txn α)) :
    applyRulesRaw rs df = Except.ok (applyRules rulesC df) := by
  induction rs generalizing rulesC df with
  | nil =>
    simp only [compileRules, Except.ok.injEq] at h
    subst h
    rfl
  | cons r rs ih =>
    cases hc : compilePattern r.pattern with
    | none => simp only [compileRules, hc] at h; cases h
    | some alts =>
      simp only [compileRules, hc] at h
      cases hrest : compileRules rs with
      | error e => rw [hrest] at h; simp at h
      | ok restC =>
        rw [hrest] at h
        simp only [Except.ok.injEq] at h
        subst h
        simp only [applyRulesRaw, hc]
        exact ih restC hrest _

/-- When every declared numeric column has a numeric dtype, the numeric
check passes. -/
theorem checkNumericCols_ok (df : Df) (nc : List String)
    (h : ∀ c ∈ nc, dtypeOf df c = some DType.numericT) :
    checkNumericCols df nc = Except.ok () := by
  induction nc with
  | nil => rfl
  | cons c rest ih =>
    have hc := h c (List.mem_cons_self c rest)
    simp only [checkNumericCols, hc]
    exact ih (fun x hx => h x (List.mem_cons_of_mem c hx))

/-- When every declared date column has a datetime dtype, the datetime check
passes. -/
theorem checkDatetimeCols_ok (df : Df) (dc : List String)
    (h : ∀ c ∈ dc, dtypeOf df c = some DType.datetimeT) :
    checkDatetimeCols df dc = Except.ok () := by
  induction dc with
  | nil => rfl
  | cons c rest ih =>
    have hc := h c (List.mem_cons_self c rest)
    simp only [checkDatetimeCols, hc]
    exact ih (fun x hx => h x (List.mem_cons_of_mem c hx))

/-- When every declared numeric column is present but not all are numeric,
the numeric check fails naming an offending column. -/
theorem checkNumericCols_err (df : Df) (nc : List String)
    (hp : ∀ c ∈ nc, dtypeOf df c ≠ none)
    (hw : ¬∀ c ∈ nc, dtypeOf df c = some DType.numericT) :
    ∃ c ∈ nc, dtypeOf df c ≠ some DType.numericT ∧
      checkNumericCols df nc = Except.error (SchemaErr.notNumeric c) := by
  induction nc with
  | nil => exact absurd (fun c hc => absurd hc (List.not_mem_nil c)) hw
  | cons c rest ih =>
    cases hdt : dtypeOf df c with
    | none => exact absurd hdt (hp c (List.mem_cons_self c rest))
    | some dt =>
      cases dt with
      | numericT =>
        have hw2 : ¬∀ x ∈ rest, dtypeOf df x = some DType.numericT := by
          intro hall
          refine hw (fun x hx => ?_)
          rcases List.mem_cons.mp hx with h1 | h2
          · rw [h1, hdt]
          · exact hall x h2
        obtain ⟨x, hx, hxne, hxeq⟩ :=
          ih (fun y hy => hp y (List.mem_cons_of_mem c hy)) hw2
        refine ⟨x, List.mem_cons_of_mem c hx, hxne, ?_⟩
        simp only [checkNumericCols, hdt]
        exact hxeq
      | datetimeT =>
        refine ⟨c, List.mem_cons_self c rest, by simp [hdt], ?_⟩
        simp only [checkNumericCols, hdt]
      | objectT =>
        refine ⟨c, List.mem_cons_self c rest, by simp [hdt], ?_⟩
        simp only [checkNumericCols, hdt]

/-- When every declared date column is present but not all are datetime, the
datetime check fails naming an offending column. -/
theorem checkDatetimeCols_err (df : Df) (dc : List String)
    (hp : ∀ c ∈ dc, dtypeOf df c ≠ none)
    (hw : ¬∀ c ∈ dc, dtypeOf df c = some DType.datetimeT) :
    ∃ c ∈ dc, dtypeOf df c ≠ some DType.datetimeT ∧
      checkDatetimeCols df dc = Except.error (SchemaErr.notDatetime c) := by
  induction dc with
  | nil => exact absurd (fun c hc => absurd hc (List.not_mem_nil c)) hw
  | cons c rest ih =>
    cases hdt : dtypeOf df c with
    | none => exact absurd hdt (hp c (List.mem_cons_self c rest))
    | some dt =>
      cases dt with
      | datetimeT =>
        have hw2 : ¬∀ x ∈ rest, dtypeOf df x = some DType.datetimeT := by
          intro hall
          refine hw (fun x hx => ?_)
          rcases List.mem_cons.mp hx with h1 | h2
          · rw [h1, hdt]
          · exact hall x h2
        obtain ⟨x, hx, hxne, hxeq⟩ :=
          ih (fun y hy => hp y (List.mem_cons_of_mem c hy)) hw2
        refine ⟨x, List.mem_cons_of_mem c hx, hxne, ?_⟩
        simp only [checkDatetimeCols, hdt]
        exact hxeq
      | numericT =>
        refine ⟨c, List.mem_cons_self c rest, by simp [hdt], ?_⟩
        simp only [checkDatetimeCols, hdt]
      | objectT =>
        refine ⟨c, List.mem_cons_self c rest, by simp [hdt], ?_⟩
        simp only [checkDatetimeCols, hdt]

/-- C4 counterexample: a rule set containing a malformed (unbalanced)
pattern is accepted when the rule set is loaded — loading evaluates the list
literal and validates nothing — and the failure occurs instead during
classification, when the rule loop hands the pattern to the regex engine. -/
theorem malformed_pattern_load_ok_classify_fails :
    loadRules badRawRules = Except.ok badRawRules ∧
    compilePattern "(visa" = none ∧
    enrichRaw badRawRules [sampleVisa] = Except.error "(visa" :=
  ⟨rfl, by decide, rfl⟩

/-- C4 (amended): loading the rule table performs no pattern validation and
always succeeds, so a malformed pattern is not a load-time failure but a
classification-time one; the actual rule table's patterns all compile to the
alternative lists the classifier uses, so classification with it cannot fail
on any table and computes exactly enrich_transactions. -/
theorem load_no_validation_classification_total {α : Type} (df : List (Txn α)) :
    (∀ rs : List RawRule, loadRules rs = Except.ok rs) ∧
    compileRules ENRICHMENT_RULES_RAW = Except.ok ENRICHMENT_RULES ∧
    enrichRaw ENRICHMENT_RULES_RAW df = Except.ok (enrich_transactions df) := by
  refine ⟨fun rs => rfl, rfl, ?_⟩
  show applyRulesRaw ENRICHMENT_RULES_RAW (df.map initTxn) =
    Except.ok (enrich_transactions df)
  rw [applyRulesRaw_ok ENRICHMENT_RULES_RAW ENRICHMENT_RULES rfl (df.map initTxn)]
  rfl

/-- C5: the derived signed amount equals credit (missing as 0) minus debit
(missing as 0); the credit flag is 1 exactly when the amount is positive, the
debit flag 1 exactly when it is negative; and the three cited cases —
credit only, debit only, both missing — evaluate as stated. -/
theorem signed_amount_flags :
    (∀ c d : Option ℚ, convert_credit_debit c d = c.getD 0 - d.getD 0 ∧
      (flagCredit (convert_credit_debit c d) = 1 ↔ 0 < convert_credit_debit c d) ∧
      (flagDebit (convert_credit_debit c d) = 1 ↔ convert_credit_debit c d < 0)) ∧
    (convert_credit_debit (some 100) none = 100 ∧ flagCredit 100 = 1 ∧ flagDebit 100 = 0) ∧
    (convert_credit_debit none (some 50) = -50 ∧ flagCredit (-50) = 0 ∧ flagDebit (-50) = 1) ∧
    (convert_credit_debit none none = 0 ∧ flagCredit 0 = 0 ∧ flagDebit 0 = 0) := by
  refine ⟨fun c d => ⟨rfl, ?_, ?_⟩, ⟨?_, ?_, ?_⟩, ⟨?_, ?_, ?_⟩, ⟨?_, ?_, ?_⟩⟩
  · unfold flagCredit
    split <;> simp_all
  · unfold flagDebit
    split <;> simp_all
  · norm_num [convert_credit_debit, fillna0]
  · norm_num [flagCredit]
  · norm_num [flagDebit]
  · norm_num [convert_credit_debit, fillna0]
  · norm_num [flagCredit]
  · norm_num [flagDebit]
  · norm_num [convert_credit_debit, fillna0]
  · norm_num [flagCredit]
  · norm_num [flagDebit]

/-- C6: a numeric cell equal to the overflow sentinel string becomes a
missing value — not zero and without raising — any other cell that cannot be
coerced to a number also becomes missing without raising, and numeric cells
already valid are unchanged in value.  Coercible strings, scientific
notation and infinities included, do coerce rather than become missing. -/
theorem overflow_sentinel_coercion :
    fix_excel_overflow (Cell.str "########") = Cell.missing ∧
    fix_excel_overflow (Cell.str "########") ≠ Cell.num 0 ∧
    parseNum "1e5" = some (PyNum.fin 100000) ∧
    fix_excel_overflow (Cell.str "1e5") = Cell.num 100000 ∧
    parseNum "inf" = some PyNum.pinf ∧
    fix_excel_overflow (Cell.str "inf") = Cell.pinf ∧
    (∀ s : String, parseNum s = none → fix_excel_overflow (Cell.str s) = Cell.missing) ∧
    (∀ q : ℚ, fix_excel_overflow (Cell.num q) = Cell.num q) := by
  refine ⟨rfl, by decide, by decide, by decide, by decide, by decide,
    fun s hs => ?_, fun q => rfl⟩
  unfold fix_excel_overflow replaceOverflow
  by_cases hsent : Cell.str s = Cell.str "########"
  · rw [if_pos hsent]
    rfl
  · rw [if_neg hsent]
    simp only [toNumericCoerce]
    rw [hs]

/-- Witness for overflow_sentinel_coercion at a concrete non-coercible
cell. -/
theorem overflow_sentinel_coercion_witness :
    parseNum "not a number" = none ∧
    fix_excel_overflow (Cell.str "not a number") = Cell.missing :=
  ⟨by decide, overflow_sentinel_coercion.2.2.2.2.2.2.1 "not a number" (by decide)⟩

/-- C7: validate_schema fails with an error naming every missing required
column when some required column is absent; with all required columns
present, if the declared numeric and date columns exist but not all carry
the expected coarse dtype, it fails with an error naming an offending
column; in both failure cases no table is returned (the result is an error,
not a table), and when every check passes it returns the table itself. -/
theorem validate_schema_spec (df : Df) (expected nc dc : List String) :
    ((∃ c ∈ expected, dfHasCol df c = false) →
      validate_schema df expected nc dc =
        Except.error (SchemaErr.missingColumns
          (expected.filter (fun c => !dfHasCol df c))) ∧
      (∀ c, c ∈ expected.filter (fun c => !dfHasCol df c) ↔
        (c ∈ expected ∧ dfHasCol df c = false))) ∧
    ((∀ c ∈ expected, dfHasCol df c = true) →
      ((∀ c ∈ nc, dtypeOf df c = some DType.numericT) →
        (∀ c ∈ dc, dtypeOf df c = some DType.datetimeT) →
        validate_schema df expected nc dc = Except.ok df) ∧
      ((∀ c ∈ nc, dtypeOf df c ≠ none) → (∀ c ∈ dc, dtypeOf df c ≠ none) →
        ¬((∀ c ∈ nc, dtypeOf df c = some DType.numericT) ∧
          (∀ c ∈ dc, dtypeOf df c = some DType.datetimeT)) →
        ∃ c e, validate_schema df expected nc dc = Except.error e ∧
          ((c ∈ nc ∧ dtypeOf df c ≠ some DType.numericT ∧ e = SchemaErr.notNumeric c) ∨
            (c ∈ dc ∧ dtypeOf df c ≠ some DType.datetimeT ∧
              e = SchemaErr.notDatetime c)))) := by
  constructor
  · intro h
    have hall : expected.all (fun c => dfHasCol df c) = false := by
      obtain ⟨c, hc, hcf⟩ := h
      rcases hb : expected.all (fun c => dfHasCol df c) with _ | _
      · rfl
      · have hco := List.all_eq_true.mp hb c hc
        rw [hcf] at hco
        cases hco
    constructor
    · simp [validate_schema, hall]
    · intro c
      rw [List.mem_filter]
      simp
  · intro hpres
    have hall : expected.all (fun c => dfHasCol df c) = true :=
      List.all_eq_true.mpr hpres
    constructor
    · intro hnum hdate
      simp [validate_schema, hall, checkNumericCols_ok df nc hnum,
        checkDatetimeCols_ok df dc hdate]
    · intro hp1 hp2 hw
      by_cases hA : ∀ c ∈ nc, dtypeOf df c = some DType.numericT
      · have hB : ¬∀ c ∈ dc, dtypeOf df c = some DType.datetimeT :=
          fun hB => hw ⟨hA, hB⟩
        obtain ⟨x, hx, hxne, hxeq⟩ := checkDatetimeCols_err df dc hp2 hB
        refine ⟨x, SchemaErr.notDatetime x, ?_, Or.inr ⟨hx, hxne, rfl⟩⟩
        simp [validate_schema, hall, checkNumericCols_ok df nc hA, hxeq]
      · obtain ⟨x, hx, hxne, hxeq⟩ := checkNumericCols_err df nc hp1 hA
        refine ⟨x, SchemaErr.notNumeric x, ?_, Or.inl ⟨hx, hxne, rfl⟩⟩
        simp [validate_schema, hall, hxeq]

/-- Witness for validate_schema_spec: a table missing the required column B
fails with an error naming exactly B. -/
theorem validate_schema_spec_witness :
    validate_schema [("A", DType.numericT)] ["A", "B"] [] [] =
      Except.error (SchemaErr.missingColumns ["B"]) := by
  have h := (validate_schema_spec [("A", DType.numericT)] ["A", "B"] [] []).1
    ⟨"B", by decide, by decide⟩
  have e : (["A", "B"].filter (fun c => !dfHasCol [("A", DType.numericT)] c)) = ["B"] := by
    decide
  exact e ▸ h.1

end TxnEngine
